import Mathlib

/-!
Verification of the BGL JSON extractor (`extract_json_from_bgl.py`).

The Python source is shallowly embedded here.  Byte buffers are `List Nat`
(Python `bytes` values; Python integers are unbounded, and none of the
scanning arithmetic overflows, so plain `Nat` is faithful).  Python slicing
`b[s:e]` (which clamps and never raises) is `pyslice`.  `struct.unpack`
raises `struct.error` when its slice is not exactly 4 bytes; fallible reads
are therefore modelled in `Except Unit`, where `.error ()` is an uncaught
Python exception.  All loops are structural recursions on an explicit fuel
argument; at every call site the fuel passed is strictly larger than the
number of iterations the loop can perform (each iteration advances its
cursor by at least 4, or its byte counter by at least 24), so the fuel-zero
branch is unreachable and the functions compute exactly what the Python
loops compute.
-/

set_option maxRecDepth 40000

/-- Byte buffers: Python `bytes` as a list of naturals. -/
abbrev Bytes := List Nat

/-- Python slice `d[s:e]` for `0 ≤ s, e`: clamps to the buffer, never raises. -/
def pyslice (d : Bytes) (s e : Nat) : Bytes := (d.drop s).take (e - s)

/-- Little-endian value of a byte list (unbounded, as Python ints are). -/
def leVal : Bytes → Nat
  | [] => 0
  | b :: rest => b + 256 * leVal rest

/-- Little-endian 4-byte encoding of `n` (used to build concrete test buffers). -/
def le32enc (n : Nat) : Bytes := [n % 256, n / 256 % 256, n / 65536 % 256, n / 16777216 % 256]

/-- Model of `read_uint32` (source lines 24-26): `struct.unpack("<I", data[offset:offset+4])`
raises `struct.error` unless the slice has exactly 4 bytes. -/
def read_uint32 (data : Bytes) (offset : Nat) : Except Unit Nat :=
  let s := pyslice data offset (offset + 4)
  if s.length = 4 then .ok (leVal s) else .error ()

/-- Total u32 read: value of `read_uint32` at in-bounds offsets (used at the
source's read sites that are dominated by a bounds guard making the slice full). -/
def u32 (data : Bytes) (offset : Nat) : Nat := leVal (pyslice data offset (offset + 4))

/-- First magic sequence `01 02 92 19` expected at bytes [0,4). -/
def magic1 : Bytes := [0x01, 0x02, 0x92, 0x19]

/-- Second magic sequence `03 18 05 08` expected at bytes [0x10,0x14). -/
def magic2 : Bytes := [0x03, 0x18, 0x05, 0x08]

/-- Model of `validate_bgl_header` (source lines 13-21). -/
def validate_bgl_header (data : Bytes) : Bool :=
  decide (pyslice data 0 4 = magic1) && decide (pyslice data 0x10 0x14 = magic2)

/-- Model of `clean_json_string` (source lines 34-40): every byte outside the
printable ASCII range [0x20, 0x7E] is replaced by a space, preserving length. -/
def clean_json_string (json_bytes : Bytes) : Bytes :=
  json_bytes.map (fun c => if c < 0x20 ∨ 0x7E < c then 0x20 else c)

/-- Characters stripped by Python `str.strip()` on ASCII text. -/
def pyspace (c : Nat) : Bool :=
  c == 0x20 || c == 0x09 || c == 0x0A || c == 0x0B || c == 0x0C || c == 0x0D

/-- Model of Python `str.strip()`: drop leading and trailing whitespace. -/
def pystrip (s : Bytes) : Bytes :=
  ((s.dropWhile pyspace).reverse.dropWhile pyspace).reverse

/-- JSON values as returned by `json.loads`, restricted to `null`, booleans,
integers, strings (lists of code points), arrays and objects.  JSON numbers
with a fraction or exponent part become Python floats and are outside this
model (no claim depends on float values). -/
inductive Json where
  | null : Json
  | bool (b : Bool) : Json
  | num (n : Int) : Json
  | str (s : List Nat) : Json
  | arr (elems : List Json) : Json
  | obj (members : List (List Nat × Json)) : Json

/-- Python truthiness of a JSON value: `None`, `False`, `0`, `""`, `[]` and
`{}` are falsy, everything else truthy. -/
def jsonTruthy : Json → Bool
  | .null => false
  | .bool b => b
  | .num n => decide (n ≠ 0)
  | .str s => !s.isEmpty
  | .arr elems => !elems.isEmpty
  | .obj members => !members.isEmpty

/-- Python truthiness of an optional JSON value (`None` is falsy). -/
def pyTruthy : Option Json → Bool
  | none => false
  | some v => jsonTruthy v

/-- Whitespace skipped by the JSON grammar (space, tab, newline, return). -/
def jsonWs (c : Nat) : Bool := c == 0x20 || c == 0x09 || c == 0x0A || c == 0x0D

/-- Drop leading JSON whitespace. -/
def skipWs (s : Bytes) : Bytes := s.dropWhile jsonWs

/-- ASCII decimal digit test. -/
def isDig (c : Nat) : Bool := 0x30 ≤ c && c ≤ 0x39

/-- Value of a list of ASCII decimal digits, most significant first. -/
def digitsVal (ds : Bytes) : Nat := ds.foldl (fun a c => 10 * a + (c - 0x30)) 0

/-- Parse a JSON unsigned integer literal: a nonempty digit run, no redundant
leading zero, not followed by `.`, `e` or `E` (those make a float, outside
this model of `json.loads`). -/
def pNat (s : Bytes) : Except Unit (Nat × Bytes) :=
  let ds := s.takeWhile isDig
  let rest := s.dropWhile isDig
  if ds.isEmpty then .error ()
  else if ds.length > 1 && ds.headD 0 == 0x30 then .error ()
  else
    match rest with
    | c :: _ => if c == 0x2E || c == 0x65 || c == 0x45 then .error () else .ok (digitsVal ds, rest)
    | [] => .ok (digitsVal ds, rest)

/-- Parse a JSON integer literal with optional leading minus sign. -/
def pNum (s : Bytes) : Except Unit (Int × Bytes) :=
  match s with
  | 0x2D :: rest =>
    (match pNat rest with
     | .ok (n, r) => .ok (-(n : Int), r)
     | .error u => .error u)
  | _ =>
    (match pNat s with
     | .ok (n, r) => .ok ((n : Int), r)
     | .error u => .error u)

/-- Single-character string escapes of JSON. -/
def escChar (e : Nat) : Option Nat :=
  if e == 0x22 || e == 0x5C || e == 0x2F then some e
  else if e == 0x62 then some 8
  else if e == 0x66 then some 12
  else if e == 0x6E then some 10
  else if e == 0x72 then some 13
  else if e == 0x74 then some 9
  else none

/-- Value of an ASCII hexadecimal digit. -/
def hexVal (c : Nat) : Option Nat :=
  if 0x30 ≤ c && c ≤ 0x39 then some (c - 0x30)
  else if 0x61 ≤ c && c ≤ 0x66 then some (c - 87)
  else if 0x41 ≤ c && c ≤ 0x46 then some (c - 55)
  else none

/-- Parse the body of a JSON string after the opening quote; each step
consumes at least one input character, so fuel `length + 1` never runs out.
Raw control characters are rejected (strict `json.loads` behaviour);
`\uXXXX` yields the code point (surrogate pairing is not modelled). -/
def pStr : Nat → Bytes → Except Unit (List Nat × Bytes)
  | 0, _ => .error ()
  | fuel+1, s =>
    match s with
    | [] => .error ()
    | c :: rest =>
      if c == 0x22 then .ok ([], rest)
      else if c == 0x5C then
        (match rest with
         | [] => .error ()
         | e :: r2 =>
           (match escChar e with
            | some ch =>
              (match pStr fuel r2 with
               | .ok (cs, r) => .ok (ch :: cs, r)
               | .error u => .error u)
            | none =>
              if e == 0x75 then
                (match r2 with
                 | h1 :: h2 :: h3 :: h4 :: r3 =>
                   (match hexVal h1, hexVal h2, hexVal h3, hexVal h4 with
                    | some a, some b, some c2, some d =>
                      (match pStr fuel r3 with
                       | .ok (cs, r) => .ok ((((a * 16 + b) * 16 + c2) * 16 + d) :: cs, r)
                       | .error u => .error u)
                    | _, _, _, _ => .error ())
                 | _ => .error ())
              else .error ()))
      else if c < 0x20 then .error ()
      else
        (match pStr fuel rest with
         | .ok (cs, r) => .ok (c :: cs, r)
         | .error u => .error u)

/-- Parse the continuation of a JSON array after its first element:
repeated `, value` until `]`. -/
def pListAux (p : Bytes → Except Unit (Json × Bytes)) : Nat → Bytes → Except Unit (List Json × Bytes)
  | 0, _ => .error ()
  | g+1, s =>
    match skipWs s with
    | [] => .error ()
    | c :: r =>
      if c == 0x5D then .ok ([], r)
      else if c == 0x2C then
        (match p r with
         | .ok (v, r2) =>
           (match pListAux p g r2 with
            | .ok (vs, r3) => .ok (v :: vs, r3)
            | .error u => .error u)
         | .error u => .error u)
      else .error ()

/-- Parse one `"key": value` member of a JSON object. -/
def pMember (p : Bytes → Except Unit (Json × Bytes)) (s : Bytes) :
    Except Unit ((List Nat × Json) × Bytes) :=
  match skipWs s with
  | 0x22 :: r =>
    (match pStr (r.length + 1) r with
     | .ok (k, r2) =>
       (match skipWs r2 with
        | 0x3A :: r3 =>
          (match p r3 with
           | .ok (v, r4) => .ok ((k, v), r4)
           | .error u => .error u)
        | _ => .error ())
     | .error u => .error u)
  | _ => .error ()

/-- Parse the continuation of a JSON object after its first member:
repeated `, "key": value` until a closing brace. -/
def pMemAux (p : Bytes → Except Unit (Json × Bytes)) : Nat → Bytes → Except Unit (List (List Nat × Json) × Bytes)
  | 0, _ => .error ()
  | g+1, s =>
    match skipWs s with
    | [] => .error ()
    | c :: r =>
      if c == 0x7D then .ok ([], r)
      else if c == 0x2C then
        (match pMember p r with
         | .ok (kv, r2) =>
           (match pMemAux p g r2 with
            | .ok (kvs, r3) => .ok (kv :: kvs, r3)
            | .error u => .error u)
         | .error u => .error u)
      else .error ()

/-- Recursive-descent JSON value: fuel bounds the nesting depth; every
nesting level consumes at least one character first, so fuel `length + 1`
never runs out. -/
def pVal : Nat → Bytes → Except Unit (Json × Bytes)
  | 0, _ => .error ()
  | fuel+1, s =>
    match skipWs s with
    | [] => .error ()
    | c :: r =>
      if c == 0x6E then
        (match r with
         | 0x75 :: 0x6C :: 0x6C :: r2 => .ok (.null, r2)
         | _ => .error ())
      else if c == 0x74 then
        (match r with
         | 0x72 :: 0x75 :: 0x65 :: r2 => .ok (.bool true, r2)
         | _ => .error ())
      else if c == 0x66 then
        (match r with
         | 0x61 :: 0x6C :: 0x73 :: 0x65 :: r2 => .ok (.bool false, r2)
         | _ => .error ())
      else if c == 0x22 then
        (match pStr (r.length + 1) r with
         | .ok (cs, r2) => .ok (.str cs, r2)
         | .error u => .error u)
      else if c == 0x5B then
        (match skipWs r with
         | 0x5D :: r2 => .ok (.arr [], r2)
         | _ =>
           (match pVal fuel r with
            | .ok (v, r2) =>
              (match pListAux (pVal fuel) (r2.length + 1) r2 with
               | .ok (vs, r3) => .ok (.arr (v :: vs), r3)
               | .error u => .error u)
            | .error u => .error u))
      else if c == 0x7B then
        (match skipWs r with
         | 0x7D :: r2 => .ok (.obj [], r2)
         | _ =>
           (match pMember (pVal fuel) r with
            | .ok (kv, r2) =>
              (match pMemAux (pVal fuel) (r2.length + 1) r2 with
               | .ok (kvs, r3) => .ok (.obj (kv :: kvs), r3)
               | .error u => .error u)
            | .error u => .error u))
      else if c == 0x2D || isDig c then
        (match pNum (c :: r) with
         | .ok (n, r2) => .ok (.num n, r2)
         | .error u => .error u)
      else .error ()

/-- Model of `json.loads` on ASCII text: parse one value, then require only
whitespace to remain.  A parse failure is the raised `ValueError` (caught at
the use site in the source). -/
def json_loads (s : Bytes) : Except Unit Json :=
  match pVal (s.length + 1) s with
  | .error u => .error u
  | .ok (v, rest) => if (skipWs rest).isEmpty then .ok v else .error ()

/-- The Python value of `return json_obj` in the decoder, as seen by the
caller: a successfully parsed JSON `null` is the Python value `None`,
indistinguishable from the decoder's failure return `None`. -/
def pyReturn : Json → Option Json
  | .null => none
  | v => some v

/-- Model of `extract_json_from_glb` (source lines 43-73).  The length read
at offset 0x0C uses `read_uint32` outside the `try` block, so a short slice
would propagate `struct.error` (`.error ()`), but the preceding
`len < 0x14` check makes that unreachable.  On the printable-ASCII output of
`clean_json_string`, Python's `decode("utf-8", errors="ignore")` is the
identity, so the decode step disappears. -/
def extract_json_from_glb (glb_bytes : Bytes) : Except Unit (Option Json) :=
  if glb_bytes.length < 0x14 then .ok none
  else
    match read_uint32 glb_bytes 0x0C with
    | .error u => .error u
    | .ok json_length =>
      let json_end := 0x14 + json_length
      if json_end > glb_bytes.length then .ok none
      else
        let json_bytes := clean_json_string (pyslice glb_bytes 0x14 json_end)
        match json_loads (pystrip json_bytes) with
        | .error _ => .ok none
        | .ok v => .ok (pyReturn v)

/-- Total wrapper for `extract_json_from_glb`, used by the scanner: its
`.error` branch is unreachable for every input (conjunct one of the C5
theorem below), so collapsing it loses nothing. -/
def extractJ (glb_bytes : Bytes) : Option Json :=
  match extract_json_from_glb glb_bytes with
  | .ok r => r
  | .error _ => none

/-- One extracted record: the object GUID (raw 16 bytes; the source renders
them as a lowercase hex string, an injective presentation), the per-chunk
ordinal `glb_index` used in the output filename, and the parsed JSON value
written to disk. -/
structure Output where
  guid : Bytes
  ordinal : Nat
  value : Json

/-- Tag `b"GLBD"` of the interesting chunk. -/
def glbdTag : Bytes := [0x47, 0x4C, 0x42, 0x44]

/-- Signature `b"GLB\x00"` of a scene block. -/
def glbTag : Bytes := [0x47, 0x4C, 0x42, 0x00]

/-- Signature `b"RIFF"` of a canonical chunk stream. -/
def riffTag : Bytes := [0x52, 0x49, 0x46, 0x46]

/-- Inner scene-block loop of `process_bgl_file` (source lines 168-206):
scan the GLBD payload `[j, stop)` (with `stop = min(i + 8 + chunk_size,
len(mdl_bytes))`) for `GLB\x00` blocks; `k` is the running `glb_index`.
Every iteration advances `j` by at least 4, so fuel `mdl.length + 1` (the
call-site value) never runs out. -/
def glbScan : Nat → Bytes → Bytes → Nat → Nat → Nat → List Output
  | 0, _, _, _, _, _ => []
  | f+1, mdl, guid, stop, j, k =>
    if j < stop then
      if j + 8 > mdl.length then []
      else if pyslice mdl j (j + 4) = glbTag then
        if j + 8 + u32 mdl (j + 4) > mdl.length then glbScan f mdl guid stop (j + 4) k
        else
          match extractJ (pyslice mdl (j + 8) (j + 8 + u32 mdl (j + 4))) with
          | some v =>
            if jsonTruthy v then
              ⟨guid, k, v⟩ :: glbScan f mdl guid stop (j + 8 + u32 mdl (j + 4)) (k + 1)
            else glbScan f mdl guid stop (j + 8 + u32 mdl (j + 4)) k
          | none => glbScan f mdl guid stop (j + 8 + u32 mdl (j + 4)) k
      else glbScan f mdl guid stop (j + 4) k
    else []

/-- GLBD chunk scan of `process_bgl_file` (source lines 157-210): walk `mdl`
from cursor `i` while `i < len - 4`; on a `GLBD` tag (with its size field in
bounds) scan the payload with a fresh `glb_index = 0` and advance by
`chunk_size`, then unconditionally by 4 more.  Every iteration advances `i`
by at least 4, so fuel `mdl.length + 1` never runs out. -/
def chunkScan : Nat → Bytes → Bytes → Nat → List Output
  | 0, _, _, _ => []
  | f+1, mdl, guid, i =>
    if i < mdl.length - 4 then
      if pyslice mdl i (i + 4) = glbdTag then
        if i + 8 > mdl.length then []
        else
          let cs := u32 mdl (i + 4)
          glbScan (mdl.length + 1) mdl guid (min (i + 8 + cs) mdl.length) (i + 8) 0
            ++ chunkScan f mdl guid (i + cs + 4)
      else chunkScan f mdl guid (i + 4)
    else []

/-- Object-entry loop of `process_bgl_file` (source lines 125-213): while
`bytes_read < subrec_size`, read the 24-byte descriptor at
`subrec_offset + 24 * objects_read` (GUID, relative model offset, model
size); skip the entry when its payload is out of bounds or not
RIFF-framed; in every branch `bytes_read` grows by `model_data_size + 24`
and `objects_read` by 1.  Fuel `subrec_size + 1` never runs out. -/
def objLoop : Nat → Bytes → Nat → Nat → Nat → Nat → List Output
  | 0, _, _, _, _, _ => []
  | f+1, data, subrec_offset, subrec_size, bytes_read, objects_read =>
    if bytes_read < subrec_size then
      let obj_offset := subrec_offset + 24 * objects_read
      if obj_offset + 24 > data.length then []
      else
        let guid := pyslice data obj_offset (obj_offset + 16)
        let start_model_data_offset := u32 data (obj_offset + 16)
        let model_data_size := u32 data (obj_offset + 20)
        let model_offset := subrec_offset + start_model_data_offset
        if model_offset + model_data_size > data.length then
          objLoop f data subrec_offset subrec_size (bytes_read + model_data_size + 24) (objects_read + 1)
        else
          let mdl_bytes := pyslice data model_offset (model_offset + model_data_size)
          if mdl_bytes.length < 4 ∨ pyslice mdl_bytes 0 4 ≠ riffTag then
            objLoop f data subrec_offset subrec_size (bytes_read + model_data_size + 24) (objects_read + 1)
          else
            chunkScan (mdl_bytes.length + 1) mdl_bytes guid 8
              ++ objLoop f data subrec_offset subrec_size (bytes_read + model_data_size + 24) (objects_read + 1)
    else []

/-- ModelData-record loop of `process_bgl_file` (source lines 117-123): for
each recorded `start_subsection`, the guard checks only `mdl_offset + 12 >
len(data)` before reading 4 bytes at `mdl_offset + 8` (covered) and 4 bytes
at `mdl_offset + 12` (which needs `mdl_offset + 16 ≤ len` and is NOT
covered), so the second `read_uint32` can raise `struct.error`. -/
def processModelOffsets (data : Bytes) : List Nat → Except Unit (List Output)
  | [] => .ok []
  | mdl_offset :: rest =>
    if mdl_offset + 12 > data.length then processModelOffsets data rest
    else
      let subrec_offset := u32 data (mdl_offset + 8)
      match read_uint32 data (mdl_offset + 12) with
      | .error u => .error u
      | .ok subrec_size =>
        match processModelOffsets data rest with
        | .error u => .error u
        | .ok outs =>
          .ok (objLoop (subrec_size + 1) data subrec_offset subrec_size 0 0 ++ outs)

/-- Top-level record enumeration of `process_bgl_file` (source lines
100-111): stride 0x14 from `offset`, stop early when a descriptor would run
past the buffer, collect `start_subsection` of records typed 0x002B.  The
`record_size` field at `offset + 0x10` is read by the source but unused. -/
def findModelData (data : Bytes) (offset : Nat) : Nat → List Nat
  | 0 => []
  | n+1 =>
    if offset + 0x14 > data.length then []
    else
      let record_type := u32 data offset
      let start_subsection := u32 data (offset + 0x0C)
      let _record_size := u32 data (offset + 0x10)
      (if record_type = 0x2B then [start_subsection] else [])
        ++ findModelData data (offset + 0x14) n

/-- Model of `process_bgl_file` (source lines 76-215) applied to the bytes
of one archive.  Returns the extraction count and the list of written
outputs (the count is incremented exactly once per written file, so it
equals the list length); `.error ()` is an uncaught exception escaping the
function. -/
def process_bgl_file (data : Bytes) : Except Unit (Nat × List Output) :=
  if data.length < 0x38 then .ok (0, [])
  else if validate_bgl_header data = false then .ok (0, [])
  else
    let record_count := u32 data 0x14
    match processModelOffsets data (findModelData data 0x38 record_count) with
    | .error u => .error u
    | .ok outs => .ok (outs.length, outs)

/-- Cursor trace of the chunk-scan loop (source lines 157-210): the list of
successive values of `i` at which the 4-byte tag is examined. -/
def chunkScanTrace : Nat → Bytes → Nat → List Nat
  | 0, _, _ => []
  | f+1, mdl, i =>
    if i < mdl.length - 4 then
      if pyslice mdl i (i + 4) = glbdTag then
        if i + 8 > mdl.length then [i]
        else i :: chunkScanTrace f mdl (i + u32 mdl (i + 4) + 4)
      else i :: chunkScanTrace f mdl (i + 4)
    else []

/-- Cursor trace of the scene-block loop (source lines 171-206): the list of
successive values of `j` at which the 4-byte signature is examined. -/
def glbScanTrace : Nat → Bytes → Nat → Nat → List Nat
  | 0, _, _, _ => []
  | f+1, mdl, stop, j =>
    if j < stop then
      if j + 8 > mdl.length then []
      else if pyslice mdl j (j + 4) = glbTag then
        if j + 8 + u32 mdl (j + 4) > mdl.length then j :: glbScanTrace f mdl stop (j + 4)
        else j :: glbScanTrace f mdl stop (j + 8 + u32 mdl (j + 4))
      else j :: glbScanTrace f mdl stop (j + 4)
    else []

/-- Byte-counter trace of the object-entry loop (source lines 128-213): the
successive values of `bytes_read` at which the loop condition holds. -/
def objLoopTrace : Nat → Bytes → Nat → Nat → Nat → Nat → List Nat
  | 0, _, _, _, _, _ => []
  | f+1, data, subrec_offset, subrec_size, bytes_read, objects_read =>
    if bytes_read < subrec_size then
      let obj_offset := subrec_offset + 24 * objects_read
      if obj_offset + 24 > data.length then [bytes_read]
      else
        bytes_read :: objLoopTrace f data subrec_offset subrec_size
          (bytes_read + u32 data (obj_offset + 20) + 24) (objects_read + 1)
    else []

/-- Scene-block payload wrapping the text `e` in the GLB layout the decoder
expects: 12 header bytes, the u32 JSON length at offset 0x0C, 4 more header
bytes, then the JSON text at offset 0x14.  Its header declares exactly the
in-bounds length of `e`. -/
def mkGlb (e : Bytes) : Bytes :=
  List.replicate 12 0 ++ le32enc e.length ++ List.replicate 4 0 ++ e

/-- One scene block: `GLB\x00` signature, u32 declared size, payload. -/
def mkBlock (e : Bytes) : Bytes := glbTag ++ le32enc (mkGlb e).length ++ mkGlb e

/-- Canonical chunk stream with one interesting `GLBD` chunk holding exactly
two scene blocks wrapping the texts `e1` and `e2`. -/
def mkMdl (e1 e2 : Bytes) : Bytes :=
  riffTag ++ List.replicate 4 0 ++ glbdTag
    ++ le32enc ((mkBlock e1).length + (mkBlock e2).length)
    ++ mkBlock e1 ++ mkBlock e2

/-- Fixed 16-byte object identifier used by the concrete test archives. -/
def guidC : Bytes := [0, 1, 2, 3, 4, 5, 6, 7, 8, 9, 10, 11, 12, 13, 14, 15]

/-- First 0x5C bytes of a well-formed archive with one 0x002B record: valid
magic, `record_count = 1`, a record at 0x38 typed 0x2B pointing to a
ModelData region at 0x4C whose subrecord table at 0x5C declares size 24. -/
def archPre1 : Bytes :=
  magic1 ++ List.replicate 12 0 ++ magic2 ++ le32enc 1 ++ List.replicate 32 0
    ++ le32enc 0x2B ++ List.replicate 8 0 ++ le32enc 0x4C ++ le32enc 0
    ++ List.replicate 8 0 ++ le32enc 0x5C ++ le32enc 24

/-- Well-formed single-record, single-object archive: one object entry at
0x5C (`guid` of 16 bytes, relative model offset 24, declared model size
`mdl.length`) whose payload `mdl` sits at offset 0x74. -/
def mkArchive (guid mdl : Bytes) : Bytes :=
  archPre1 ++ guid ++ (le32enc 24 ++ (le32enc mdl.length ++ mdl))

/-- The single-object archive with the fixed identifier `guidC`. -/
def mkArchiveWith (mdl : Bytes) : Bytes := mkArchive guidC mdl

/-- Archive triggering the unguarded read: 0x38-byte header plus one 0x2B
record whose `start_subsection` is 64, so `mdl_offset + 12 = 76 = len(data)`
passes the guard but the 4-byte read at offset 76 gets an empty slice. -/
def bufC1 : Bytes :=
  magic1 ++ List.replicate 12 0 ++ magic2 ++ le32enc 1 ++ List.replicate 32 0
    ++ le32enc 0x2B ++ List.replicate 8 0 ++ le32enc 64 ++ le32enc 0

/-- Chunk stream with two consecutive `GLBD` chunks, each holding one scene
block wrapping the JSON text `1`. -/
def mdlTwoChunks : Bytes :=
  riffTag ++ List.replicate 4 0
    ++ glbdTag ++ le32enc 29 ++ mkBlock [0x31]
    ++ glbdTag ++ le32enc 29 ++ mkBlock [0x31]

/-- Chunk stream with one `GLBD` chunk of declared size 8 followed by enough
zero padding that the scan continues past it. -/
def mdlC3 : Bytes :=
  riffTag ++ List.replicate 4 0 ++ glbdTag ++ le32enc 8 ++ List.replicate 16 0

/-- Chunk stream whose single scene block declares size 999, far past the
buffer end. -/
def mdlC7 : Bytes :=
  riffTag ++ List.replicate 4 0 ++ glbdTag ++ le32enc 12
    ++ glbTag ++ le32enc 999 ++ List.replicate 4 0

/-- Chunk stream whose single scene block wraps the JSON text `0`, which
parses successfully to the falsy value 0. -/
def mdlC9 : Bytes :=
  riffTag ++ List.replicate 4 0 ++ glbdTag ++ le32enc 29 ++ mkBlock [0x30]

/-- All-zero 28-byte buffer: room for one 24-byte object descriptor whose
declared model size is 0 and whose resolved payload is empty (not RIFF). -/
def dataC6 : Bytes := List.replicate 28 0

/-- Sanitized candidate JSON region of a scene block (source lines 63-68):
the declared-length slice at 0x14, cleaned, utf-8-decoded (the identity on
cleaned bytes) and stripped. -/
def glbSanitized (glb_bytes : Bytes) : Bytes :=
  pystrip (clean_json_string (pyslice glb_bytes 0x14 (0x14 + u32 glb_bytes 0x0C)))

theorem pyslice_shift (a b : Bytes) (s e : Nat) (h : a.length ≤ s) :
    pyslice (a ++ b) s e = pyslice b (s - a.length) (e - a.length) := by
  obtain ⟨k, rfl⟩ : ∃ k, s = a.length + k := ⟨s - a.length, by omega⟩
  unfold pyslice
  rw [List.drop_append, show a.length + k - a.length = k from by omega,
    show e - a.length - k = e - (a.length + k) from by omega]

theorem pyslice_front (a b : Bytes) (s e : Nat) (h : e ≤ a.length) :
    pyslice (a ++ b) s e = pyslice a s e := by
  unfold pyslice
  by_cases hs : s ≤ a.length
  · rw [List.drop_append_of_le_length hs, List.take_append_of_le_length]
    simp
    omega
  · have h0 : e - s = 0 := by omega
    simp [h0]

theorem pyslice_of_length_le (l : Bytes) (e : Nat) (h : l.length ≤ e) :
    pyslice l 0 e = l := by
  unfold pyslice
  simp only [List.drop_zero, Nat.sub_zero]
  exact List.take_of_length_le h

theorem u32_shift (a b : Bytes) (off : Nat) (h : a.length ≤ off) :
    u32 (a ++ b) off = u32 b (off - a.length) := by
  unfold u32
  rw [pyslice_shift a b off (off + 4) h,
    show off + 4 - a.length = off - a.length + 4 from by omega]

theorem u32_front (a b : Bytes) (off : Nat) (h : off + 4 ≤ a.length) :
    u32 (a ++ b) off = u32 a off := by
  unfold u32
  rw [pyslice_front a b off (off + 4) h]

theorem leVal_le32enc (n : Nat) (h : n < 4294967296) : leVal (le32enc n) = n := by
  simp [le32enc, leVal]
  omega

@[simp] theorem le32enc_length (n : Nat) : (le32enc n).length = 4 := rfl

theorem u32_le32enc (n : Nat) (rest : Bytes) (h : n < 4294967296) :
    u32 (le32enc n ++ rest) 0 = n := by
  rw [u32_front (le32enc n) rest 0 (by simp)]
  unfold u32
  rw [show pyslice (le32enc n) 0 4 = le32enc n from pyslice_of_length_le _ _ (by simp)]
  exact leVal_le32enc n h

theorem read_uint32_ok (d : Bytes) (off : Nat) (h : off + 4 ≤ d.length) :
    read_uint32 d off = .ok (u32 d off) := by
  unfold read_uint32 u32
  have hl : (pyslice d off (off + 4)).length = 4 := by
    simp [pyslice]
    omega
  simp [hl]

@[simp] theorem glbdTag_length : glbdTag.length = 4 := rfl

@[simp] theorem glbTag_length : glbTag.length = 4 := rfl

@[simp] theorem riffTag_length : riffTag.length = 4 := rfl

@[simp] theorem guidC_length : guidC.length = 16 := rfl

@[simp] theorem archPre1_length : archPre1.length = 92 := rfl

@[simp] theorem mkGlb_length (e : Bytes) : (mkGlb e).length = 20 + e.length := by
  simp [mkGlb]
  omega

@[simp] theorem mkBlock_length (e : Bytes) : (mkBlock e).length = 28 + e.length := by
  simp [mkBlock]
  omega

@[simp] theorem mkMdl_length (e1 e2 : Bytes) :
    (mkMdl e1 e2).length = 72 + e1.length + e2.length := by
  simp [mkMdl]
  omega

theorem mkArchive_length (guid mdl : Bytes) (h : guid.length = 16) :
    (mkArchive guid mdl).length = 116 + mdl.length := by
  simp [mkArchive, h]
  omega

theorem pyslice_shift' (a b : Bytes) (s e s' e' : Nat) (h : a.length ≤ s)
    (hs : s - a.length = s') (he : e - a.length = e') :
    pyslice (a ++ b) s e = pyslice b s' e' := by
  rw [pyslice_shift a b s e h, hs, he]

theorem u32_shift' (a b : Bytes) (off off' : Nat) (h : a.length ≤ off)
    (ho : off - a.length = off') :
    u32 (a ++ b) off = u32 b off' := by
  rw [u32_shift a b off h, ho]

theorem u32_le32enc_nil (n : Nat) (h : n < 4294967296) : u32 (le32enc n) 0 = n := by
  unfold u32
  rw [pyslice_of_length_le _ _ (by simp)]
  exact leVal_le32enc n h

theorem mkGlb_u32_12 (e : Bytes) (h : e.length < 4294967296) : u32 (mkGlb e) 12 = e.length := by
  unfold mkGlb
  simp only [List.append_assoc]
  rw [u32_shift' (List.replicate 12 0) _ 12 0 (by simp) (by simp)]
  exact u32_le32enc e.length _ h

theorem mkGlb_slice (e : Bytes) : pyslice (mkGlb e) 20 (20 + e.length) = e := by
  unfold mkGlb
  simp only [List.append_assoc]
  rw [pyslice_shift' (List.replicate 12 0) _ 20 (20 + e.length) 8 (8 + e.length) (by simp)
      (by simp) (by simp; omega)]
  rw [pyslice_shift' (le32enc e.length) _ 8 (8 + e.length) 4 (4 + e.length) (by simp)
      (by simp) (by simp; omega)]
  rw [pyslice_shift' (List.replicate 4 0) _ 4 (4 + e.length) 0 e.length (by simp)
      (by simp) (by simp)]
  exact pyslice_of_length_le e _ (Nat.le_refl _)

theorem extract_mkGlb (e : Bytes) (v : Json) (hl : e.length < 4294967296)
    (hp : json_loads e = .ok v) (hc : clean_json_string e = e) (hs : pystrip e = e) :
    extract_json_from_glb (mkGlb e) = .ok (pyReturn v) := by
  unfold extract_json_from_glb
  rw [if_neg (by simp only [mkGlb_length]; omega)]
  have hr : read_uint32 (mkGlb e) 12 = .ok (u32 (mkGlb e) 12) :=
    read_uint32_ok _ _ (by simp only [mkGlb_length]; omega)
  simp only [hr, mkGlb_u32_12 e hl]
  rw [if_neg (by simp only [mkGlb_length]; omega)]
  rw [mkGlb_slice e, hc, hs]
  simp only [hp]

theorem extractJ_mkGlb (e : Bytes) (v : Json) (hl : e.length < 4294967296)
    (hp : json_loads e = .ok v) (hc : clean_json_string e = e) (hs : pystrip e = e) :
    extractJ (mkGlb e) = pyReturn v := by
  unfold extractJ
  simp only [extract_mkGlb e v hl hp hc hs]

theorem mkMdl_riff (e1 e2 : Bytes) : pyslice (mkMdl e1 e2) 0 4 = riffTag := by
  unfold mkMdl
  simp only [List.append_assoc]
  rw [pyslice_front _ _ _ _ (by simp)]
  exact pyslice_of_length_le _ _ (by simp)

theorem mkMdl_tag8 (e1 e2 : Bytes) : pyslice (mkMdl e1 e2) 8 12 = glbdTag := by
  unfold mkMdl
  simp only [List.append_assoc]
  rw [pyslice_shift' riffTag _ 8 12 4 8 (by simp) (by simp) (by simp)]
  rw [pyslice_shift' (List.replicate 4 0) _ 4 8 0 4 (by simp) (by simp) (by simp)]
  rw [pyslice_front _ _ _ _ (by simp)]
  exact pyslice_of_length_le _ _ (by simp)

theorem mkMdl_cs (e1 e2 : Bytes) (h1 : e1.length < 65536) (h2 : e2.length < 65536) :
    u32 (mkMdl e1 e2) 12 = 56 + e1.length + e2.length := by
  unfold mkMdl
  simp only [List.append_assoc]
  rw [u32_shift' riffTag _ 12 8 (by simp) (by simp)]
  rw [u32_shift' (List.replicate 4 0) _ 8 4 (by simp) (by simp)]
  rw [u32_shift' glbdTag _ 4 0 (by simp) (by simp)]
  rw [u32_le32enc _ _ (by simp only [mkBlock_length]; omega)]
  simp only [mkBlock_length]
  omega

theorem mkMdl_sig1 (e1 e2 : Bytes) : pyslice (mkMdl e1 e2) 16 20 = glbTag := by
  unfold mkMdl
  simp only [List.append_assoc]
  rw [pyslice_shift' riffTag _ 16 20 12 16 (by simp) (by simp) (by simp)]
  rw [pyslice_shift' (List.replicate 4 0) _ 12 16 8 12 (by simp) (by simp) (by simp)]
  rw [pyslice_shift' glbdTag _ 8 12 4 8 (by simp) (by simp) (by simp)]
  rw [pyslice_shift' (le32enc _) _ 4 8 0 4 (by simp) (by simp) (by simp)]
  rw [pyslice_front _ _ _ _ (by simp only [mkBlock_length]; omega)]
  unfold mkBlock
  simp only [List.append_assoc]
  rw [pyslice_front _ _ _ _ (by simp)]
  exact pyslice_of_length_le _ _ (by simp)

theorem mkMdl_gs1 (e1 e2 : Bytes) (h1 : e1.length < 65536) :
    u32 (mkMdl e1 e2) 20 = 20 + e1.length := by
  unfold mkMdl
  simp only [List.append_assoc]
  rw [u32_shift' riffTag _ 20 16 (by simp) (by simp)]
  rw [u32_shift' (List.replicate 4 0) _ 16 12 (by simp) (by simp)]
  rw [u32_shift' glbdTag _ 12 8 (by simp) (by simp)]
  rw [u32_shift' (le32enc _) _ 8 4 (by simp) (by simp)]
  rw [u32_front _ _ _ (by simp only [mkBlock_length]; omega)]
  unfold mkBlock
  simp only [List.append_assoc]
  rw [u32_shift' glbTag _ 4 0 (by simp) (by simp)]
  rw [u32_le32enc _ _ (by simp only [mkGlb_length]; omega)]
  simp

theorem mkMdl_glb1 (e1 e2 : Bytes) :
    pyslice (mkMdl e1 e2) 24 (24 + (20 + e1.length)) = mkGlb e1 := by
  rw [show 24 + (20 + e1.length) = 44 + e1.length from by omega]
  unfold mkMdl
  simp only [List.append_assoc]
  rw [pyslice_shift' riffTag _ 24 (44 + e1.length) 20 (40 + e1.length)
      (by simp) (by simp) (by simp; omega)]
  rw [pyslice_shift' (List.replicate 4 0) _ 20 (40 + e1.length) 16 (36 + e1.length)
      (by simp) (by simp) (by simp; omega)]
  rw [pyslice_shift' glbdTag _ 16 (36 + e1.length) 12 (32 + e1.length)
      (by simp) (by simp) (by simp; omega)]
  rw [pyslice_shift' (le32enc _) _ 12 (32 + e1.length) 8 (28 + e1.length)
      (by simp) (by simp) (by simp; omega)]
  rw [pyslice_front _ _ _ _ (by simp only [mkBlock_length]; omega)]
  unfold mkBlock
  simp only [List.append_assoc]
  rw [pyslice_shift' glbTag _ 8 (28 + e1.length) 4 (24 + e1.length)
      (by simp) (by simp) (by simp; omega)]
  rw [pyslice_shift' (le32enc _) _ 4 (24 + e1.length) 0 (20 + e1.length)
      (by simp) (by simp) (by simp; omega)]
  exact pyslice_of_length_le _ _ (by simp)

theorem mkMdl_sig2 (e1 e2 : Bytes) :
    pyslice (mkMdl e1 e2) (24 + (20 + e1.length)) (24 + (20 + e1.length) + 4) = glbTag := by
  rw [show 24 + (20 + e1.length) = 44 + e1.length from by omega,
      show 44 + e1.length + 4 = 48 + e1.length from by omega]
  unfold mkMdl
  simp only [List.append_assoc]
  rw [pyslice_shift' riffTag _ (44 + e1.length) (48 + e1.length) (40 + e1.length)
      (44 + e1.length) (by simp only [riffTag_length]; omega) (by simp; omega) (by simp; omega)]
  rw [pyslice_shift' (List.replicate 4 0) _ (40 + e1.length) (44 + e1.length)
      (36 + e1.length) (40 + e1.length) (by simp; omega) (by simp; omega) (by simp; omega)]
  rw [pyslice_shift' glbdTag _ (36 + e1.length) (40 + e1.length) (32 + e1.length)
      (36 + e1.length) (by simp; omega) (by simp; omega) (by simp; omega)]
  rw [pyslice_shift' (le32enc _) _ (32 + e1.length) (36 + e1.length) (28 + e1.length)
      (32 + e1.length) (by simp; omega) (by simp; omega) (by simp; omega)]
  rw [pyslice_shift' (mkBlock e1) _ (28 + e1.length) (32 + e1.length) 0 4
      (by simp only [mkBlock_length]; omega) (by simp only [mkBlock_length]; omega)
      (by simp only [mkBlock_length]; omega)]
  unfold mkBlock
  simp only [List.append_assoc]
  rw [pyslice_front _ _ _ _ (by simp)]
  exact pyslice_of_length_le _ _ (by simp)

theorem mkMdl_gs2 (e1 e2 : Bytes) (h2 : e2.length < 65536) :
    u32 (mkMdl e1 e2) (24 + (20 + e1.length) + 4) = 20 + e2.length := by
  rw [show 24 + (20 + e1.length) + 4 = 48 + e1.length from by omega]
  unfold mkMdl
  simp only [List.append_assoc]
  rw [u32_shift' riffTag _ (48 + e1.length) (44 + e1.length)
      (by simp only [riffTag_length]; omega) (by simp; omega)]
  rw [u32_shift' (List.replicate 4 0) _ (44 + e1.length) (40 + e1.length)
      (by simp; omega) (by simp; omega)]
  rw [u32_shift' glbdTag _ (40 + e1.length) (36 + e1.length) (by simp; omega) (by simp; omega)]
  rw [u32_shift' (le32enc _) _ (36 + e1.length) (32 + e1.length) (by simp; omega) (by simp; omega)]
  rw [u32_shift' (mkBlock e1) _ (32 + e1.length) 4
      (by simp only [mkBlock_length]; omega) (by simp only [mkBlock_length]; omega)]
  unfold mkBlock
  simp only [List.append_assoc]
  rw [u32_shift' glbTag _ 4 0 (by simp) (by simp)]
  rw [u32_le32enc _ _ (by simp only [mkGlb_length]; omega)]
  simp

theorem mkMdl_glb2 (e1 e2 : Bytes) :
    pyslice (mkMdl e1 e2) (24 + (20 + e1.length) + 8)
      (24 + (20 + e1.length) + 8 + (20 + e2.length)) = mkGlb e2 := by
  rw [show 24 + (20 + e1.length) + 8 = 52 + e1.length from by omega,
      show 52 + e1.length + (20 + e2.length) = 72 + e1.length + e2.length from by omega]
  unfold mkMdl
  simp only [List.append_assoc]
  rw [pyslice_shift' riffTag _ (52 + e1.length) (72 + e1.length + e2.length)
      (48 + e1.length) (68 + e1.length + e2.length) (by simp only [riffTag_length]; omega)
      (by simp; omega) (by simp; omega)]
  rw [pyslice_shift' (List.replicate 4 0) _ (48 + e1.length) (68 + e1.length + e2.length)
      (44 + e1.length) (64 + e1.length + e2.length) (by simp; omega) (by simp; omega)
      (by simp; omega)]
  rw [pyslice_shift' glbdTag _ (44 + e1.length) (64 + e1.length + e2.length)
      (40 + e1.length) (60 + e1.length + e2.length) (by simp; omega) (by simp; omega)
      (by simp; omega)]
  rw [pyslice_shift' (le32enc _) _ (40 + e1.length) (60 + e1.length + e2.length)
      (36 + e1.length) (56 + e1.length + e2.length) (by simp; omega) (by simp; omega)
      (by simp; omega)]
  rw [pyslice_shift' (mkBlock e1) _ (36 + e1.length) (56 + e1.length + e2.length)
      8 (28 + e2.length) (by simp only [mkBlock_length]; omega)
      (by simp only [mkBlock_length]; omega) (by simp only [mkBlock_length]; omega)]
  unfold mkBlock
  simp only [List.append_assoc]
  rw [pyslice_shift' glbTag _ 8 (28 + e2.length) 4 (24 + e2.length)
      (by simp) (by simp) (by simp; omega)]
  rw [pyslice_shift' (le32enc _) _ 4 (24 + e2.length) 0 (20 + e2.length)
      (by simp) (by simp) (by simp; omega)]
  exact pyslice_of_length_le _ _ (by simp)

theorem glbScan_step_emit (f : Nat) (mdl guid : Bytes) (stop j k : Nat) (v : Json)
    (hjs : j < stop) (hb : ¬ j + 8 > mdl.length) (hsig : pyslice mdl j (j + 4) = glbTag)
    (hin : ¬ j + 8 + u32 mdl (j + 4) > mdl.length)
    (hx : extractJ (pyslice mdl (j + 8) (j + 8 + u32 mdl (j + 4))) = some v)
    (ht : jsonTruthy v = true) :
    glbScan (f+1) mdl guid stop j k
      = ⟨guid, k, v⟩ :: glbScan f mdl guid stop (j + 8 + u32 mdl (j + 4)) (k + 1) := by
  simp only [glbScan]
  rw [if_pos hjs, if_neg hb, if_pos hsig, if_neg hin]
  simp only [hx]
  rw [if_pos ht]

theorem glbScan_stop (f : Nat) (mdl guid : Bytes) (stop j k : Nat) (h : ¬ j < stop) :
    glbScan f mdl guid stop j k = [] := by
  match f with
  | 0 => rfl
  | f+1 =>
    simp only [glbScan]
    rw [if_neg h]

theorem chunkScan_step_match (f : Nat) (mdl guid : Bytes) (i : Nat)
    (h1 : i < mdl.length - 4) (h2 : pyslice mdl i (i + 4) = glbdTag)
    (h3 : ¬ i + 8 > mdl.length) :
    chunkScan (f+1) mdl guid i =
      glbScan (mdl.length + 1) mdl guid (min (i + 8 + u32 mdl (i + 4)) mdl.length) (i + 8) 0
        ++ chunkScan f mdl guid (i + u32 mdl (i + 4) + 4) := by
  simp only [chunkScan]
  rw [if_pos h1, if_pos h2, if_neg h3]

theorem chunkScan_stop (f : Nat) (mdl guid : Bytes) (i : Nat) (h : ¬ i < mdl.length - 4) :
    chunkScan f mdl guid i = [] := by
  match f with
  | 0 => rfl
  | f+1 =>
    simp only [chunkScan]
    rw [if_neg h]

theorem glbScan_mkMdl (f : Nat) (guid e1 e2 : Bytes) (v1 v2 : Json)
    (h1 : e1.length < 65536) (h2 : e2.length < 65536)
    (hx1 : extractJ (mkGlb e1) = some v1) (ht1 : jsonTruthy v1 = true)
    (hx2 : extractJ (mkGlb e2) = some v2) (ht2 : jsonTruthy v2 = true) :
    glbScan (f+3) (mkMdl e1 e2) guid (72 + e1.length + e2.length) 16 0
      = [⟨guid, 0, v1⟩, ⟨guid, 1, v2⟩] := by
  have hgs1 : u32 (mkMdl e1 e2) (16 + 4) = 20 + e1.length := by
    rw [show (16:Nat) + 4 = 20 from rfl]
    exact mkMdl_gs1 e1 e2 h1
  have hglb1 : pyslice (mkMdl e1 e2) (16 + 8) (16 + 8 + u32 (mkMdl e1 e2) (16 + 4))
      = mkGlb e1 := by
    rw [hgs1, show (16:Nat) + 8 = 24 from rfl]
    exact mkMdl_glb1 e1 e2
  rw [show f + 3 = f + 1 + 1 + 1 from by omega]
  rw [glbScan_step_emit (f+1+1) (mkMdl e1 e2) guid (72 + e1.length + e2.length) 16 0 v1
      (by omega) (by simp only [mkMdl_length]; omega) (mkMdl_sig1 e1 e2)
      (by rw [hgs1]; simp only [mkMdl_length]; omega) (by rw [hglb1]; exact hx1) ht1]
  rw [hgs1, show (16:Nat) + 8 = 24 from rfl]
  have hgs2 : u32 (mkMdl e1 e2) (24 + (20 + e1.length) + 4) = 20 + e2.length :=
    mkMdl_gs2 e1 e2 h2
  have hglb2 : pyslice (mkMdl e1 e2) (24 + (20 + e1.length) + 8)
      (24 + (20 + e1.length) + 8 + u32 (mkMdl e1 e2) (24 + (20 + e1.length) + 4))
      = mkGlb e2 := by
    rw [hgs2]
    exact mkMdl_glb2 e1 e2
  rw [glbScan_step_emit (f+1) (mkMdl e1 e2) guid (72 + e1.length + e2.length)
      (24 + (20 + e1.length)) (0+1) v2
      (by omega) (by simp only [mkMdl_length]; omega) (mkMdl_sig2 e1 e2)
      (by rw [hgs2]; simp only [mkMdl_length]; omega) (by rw [hglb2]; exact hx2) ht2]
  rw [hgs2]
  rw [glbScan_stop (f+1) (mkMdl e1 e2) guid (72 + e1.length + e2.length)
      (24 + (20 + e1.length) + 8 + (20 + e2.length)) (0+1+1) (by omega)]

theorem chunkScan_mkMdl (guid e1 e2 : Bytes) (v1 v2 : Json)
    (h1 : e1.length < 65536) (h2 : e2.length < 65536)
    (hx1 : extractJ (mkGlb e1) = some v1) (ht1 : jsonTruthy v1 = true)
    (hx2 : extractJ (mkGlb e2) = some v2) (ht2 : jsonTruthy v2 = true) :
    chunkScan ((mkMdl e1 e2).length + 1) (mkMdl e1 e2) guid 8
      = [⟨guid, 0, v1⟩, ⟨guid, 1, v2⟩] := by
  rw [show (mkMdl e1 e2).length + 1 = (72 + e1.length + e2.length) + 1 from by simp]
  rw [chunkScan_step_match (72 + e1.length + e2.length) (mkMdl e1 e2) guid 8
      (by simp only [mkMdl_length]; omega) (mkMdl_tag8 e1 e2)
      (by simp only [mkMdl_length]; omega)]
  rw [show (8:Nat) + 4 = 12 from rfl, show (8:Nat) + 8 = 16 from rfl]
  rw [mkMdl_cs e1 e2 h1 h2]
  rw [show min (16 + (56 + e1.length + e2.length)) (mkMdl e1 e2).length
      = 72 + e1.length + e2.length from by simp only [mkMdl_length]; omega]
  rw [show (mkMdl e1 e2).length + 1 = (70 + e1.length + e2.length) + 3 from by
    simp only [mkMdl_length]; omega]
  rw [glbScan_mkMdl (70 + e1.length + e2.length) guid e1 e2 v1 v2 h1 h2 hx1 ht1 hx2 ht2]
  rw [chunkScan_stop (72 + e1.length + e2.length) (mkMdl e1 e2) guid
      (8 + (56 + e1.length + e2.length) + 4) (by simp only [mkMdl_length]; omega)]
  simp

theorem objLoop_stop (f : Nat) (data : Bytes) (so ss br k : Nat) (h : ss ≤ br) :
    objLoop f data so ss br k = [] := by
  match f with
  | 0 => rfl
  | f+1 =>
    simp only [objLoop]
    rw [if_neg (by omega)]

theorem objLoop_step (f : Nat) (data : Bytes) (so ss br k : Nat)
    (h1 : br < ss) (h2 : ¬ so + 24 * k + 24 > data.length) :
    objLoop (f+1) data so ss br k =
      (if so + u32 data (so + 24 * k + 16) + u32 data (so + 24 * k + 20) > data.length then
        objLoop f data so ss (br + u32 data (so + 24 * k + 20) + 24) (k + 1)
       else if (pyslice data (so + u32 data (so + 24 * k + 16))
            (so + u32 data (so + 24 * k + 16) + u32 data (so + 24 * k + 20))).length < 4
          ∨ pyslice (pyslice data (so + u32 data (so + 24 * k + 16))
            (so + u32 data (so + 24 * k + 16) + u32 data (so + 24 * k + 20))) 0 4 ≠ riffTag then
        objLoop f data so ss (br + u32 data (so + 24 * k + 20) + 24) (k + 1)
       else
        chunkScan ((pyslice data (so + u32 data (so + 24 * k + 16))
            (so + u32 data (so + 24 * k + 16) + u32 data (so + 24 * k + 20))).length + 1)
          (pyslice data (so + u32 data (so + 24 * k + 16))
            (so + u32 data (so + 24 * k + 16) + u32 data (so + 24 * k + 20)))
          (pyslice data (so + 24 * k) (so + 24 * k + 16)) 8
          ++ objLoop f data so ss (br + u32 data (so + 24 * k + 20) + 24) (k + 1)) := by
  simp only [objLoop]
  rw [if_pos h1, if_neg h2]

theorem arch_validate (guid mdl : Bytes) : validate_bgl_header (mkArchive guid mdl) = true := by
  unfold validate_bgl_header mkArchive
  simp only [List.append_assoc]
  rw [pyslice_front _ _ _ _ (by simp), pyslice_front _ _ _ _ (by simp)]
  rfl

theorem arch_u32_20 (guid mdl : Bytes) : u32 (mkArchive guid mdl) 20 = 1 := by
  unfold mkArchive
  simp only [List.append_assoc]
  rw [u32_front _ _ _ (by simp)]
  rfl

theorem arch_u32_56 (guid mdl : Bytes) : u32 (mkArchive guid mdl) 56 = 43 := by
  unfold mkArchive
  simp only [List.append_assoc]
  rw [u32_front _ _ _ (by simp)]
  rfl

theorem arch_u32_68 (guid mdl : Bytes) : u32 (mkArchive guid mdl) 68 = 76 := by
  unfold mkArchive
  simp only [List.append_assoc]
  rw [u32_front _ _ _ (by simp)]
  rfl

theorem arch_u32_84 (guid mdl : Bytes) : u32 (mkArchive guid mdl) 84 = 92 := by
  unfold mkArchive
  simp only [List.append_assoc]
  rw [u32_front _ _ _ (by simp)]
  rfl

theorem arch_read_88 (guid mdl : Bytes) (hg : guid.length = 16) :
    read_uint32 (mkArchive guid mdl) 88 = .ok 24 := by
  rw [read_uint32_ok _ _ (by rw [mkArchive_length guid mdl hg]; omega)]
  unfold mkArchive
  simp only [List.append_assoc]
  rw [u32_front _ _ _ (by simp)]
  rfl

theorem arch_guid (guid mdl : Bytes) (hg : guid.length = 16) :
    pyslice (mkArchive guid mdl) 92 108 = guid := by
  unfold mkArchive
  simp only [List.append_assoc]
  rw [pyslice_shift' archPre1 _ 92 108 0 16 (by simp) (by simp) (by simp)]
  rw [pyslice_front _ _ _ _ (by omega)]
  exact pyslice_of_length_le _ _ (by omega)

theorem arch_u32_108 (guid mdl : Bytes) (hg : guid.length = 16) :
    u32 (mkArchive guid mdl) 108 = 24 := by
  unfold mkArchive
  simp only [List.append_assoc]
  rw [u32_shift' archPre1 _ 108 16 (by simp) (by simp)]
  rw [u32_shift' guid _ 16 0 (by omega) (by omega)]
  exact u32_le32enc 24 _ (by omega)

theorem arch_u32_112 (guid mdl : Bytes) (hg : guid.length = 16)
    (hml : mdl.length < 4294967296) :
    u32 (mkArchive guid mdl) 112 = mdl.length := by
  unfold mkArchive
  simp only [List.append_assoc]
  rw [u32_shift' archPre1 _ 112 20 (by simp) (by simp)]
  rw [u32_shift' guid _ 20 4 (by omega) (by omega)]
  rw [u32_shift' (le32enc 24) _ 4 0 (by simp) (by simp)]
  exact u32_le32enc _ _ hml

theorem arch_mdl (guid mdl : Bytes) (hg : guid.length = 16) :
    pyslice (mkArchive guid mdl) 116 (116 + mdl.length) = mdl := by
  unfold mkArchive
  simp only [List.append_assoc]
  rw [pyslice_shift' archPre1 _ 116 (116 + mdl.length) 24 (24 + mdl.length)
      (by simp) (by simp) (by simp; omega)]
  rw [pyslice_shift' guid _ 24 (24 + mdl.length) 8 (8 + mdl.length)
      (by omega) (by omega) (by omega)]
  rw [pyslice_shift' (le32enc 24) _ 8 (8 + mdl.length) 4 (4 + mdl.length)
      (by simp) (by simp) (by simp; omega)]
  rw [pyslice_shift' (le32enc mdl.length) _ 4 (4 + mdl.length) 0 mdl.length
      (by simp) (by simp) (by simp)]
  exact pyslice_of_length_le _ _ (Nat.le_refl _)

theorem findModelData_arch (guid mdl : Bytes) (hg : guid.length = 16) :
    findModelData (mkArchive guid mdl) 56 1 = [76] := by
  have hA : (mkArchive guid mdl).length = 116 + mdl.length := mkArchive_length _ _ hg
  show findModelData (mkArchive guid mdl) 56 (0 + 1) = [76]
  simp only [findModelData]
  rw [if_neg (by omega)]
  simp only [Nat.reduceAdd]
  rw [arch_u32_56 guid mdl, arch_u32_68 guid mdl]
  rw [if_pos rfl]
  simp

theorem objLoop_arch (guid e1 e2 : Bytes) (v1 v2 : Json) (hg : guid.length = 16)
    (h1 : e1.length < 65536) (h2 : e2.length < 65536)
    (hx1 : extractJ (mkGlb e1) = some v1) (ht1 : jsonTruthy v1 = true)
    (hx2 : extractJ (mkGlb e2) = some v2) (ht2 : jsonTruthy v2 = true) :
    objLoop (24 + 1) (mkArchive guid (mkMdl e1 e2)) 92 24 0 0
      = [⟨guid, 0, v1⟩, ⟨guid, 1, v2⟩] := by
  have hA : (mkArchive guid (mkMdl e1 e2)).length = 116 + (mkMdl e1 e2).length :=
    mkArchive_length _ _ hg
  have hml : (mkMdl e1 e2).length < 4294967296 := by
    simp only [mkMdl_length]
    omega
  rw [objLoop_step 24 _ 92 24 0 0 (by omega) (by omega)]
  simp only [Nat.reduceMul, Nat.reduceAdd]
  rw [arch_guid guid (mkMdl e1 e2) hg]
  rw [arch_u32_108 guid (mkMdl e1 e2) hg]
  rw [arch_u32_112 guid (mkMdl e1 e2) hg hml]
  simp only [Nat.reduceAdd]
  rw [if_neg (by omega)]
  rw [arch_mdl guid (mkMdl e1 e2) hg]
  rw [if_neg (by
    push_neg
    exact ⟨by simp only [mkMdl_length]; omega, mkMdl_riff e1 e2⟩)]
  rw [chunkScan_mkMdl guid e1 e2 v1 v2 h1 h2 hx1 ht1 hx2 ht2]
  rw [objLoop_stop 24 _ 92 24 (0 + (mkMdl e1 e2).length + 24) (0+1) (by omega)]
  simp

theorem pmo_arch (guid e1 e2 : Bytes) (v1 v2 : Json) (hg : guid.length = 16)
    (h1 : e1.length < 65536) (h2 : e2.length < 65536)
    (hx1 : extractJ (mkGlb e1) = some v1) (ht1 : jsonTruthy v1 = true)
    (hx2 : extractJ (mkGlb e2) = some v2) (ht2 : jsonTruthy v2 = true) :
    processModelOffsets (mkArchive guid (mkMdl e1 e2)) [76]
      = .ok [⟨guid, 0, v1⟩, ⟨guid, 1, v2⟩] := by
  have hA : (mkArchive guid (mkMdl e1 e2)).length = 116 + (mkMdl e1 e2).length :=
    mkArchive_length _ _ hg
  simp only [processModelOffsets]
  rw [if_neg (by omega)]
  simp only [Nat.reduceAdd]
  rw [arch_u32_84 guid (mkMdl e1 e2)]
  simp only [arch_read_88 guid (mkMdl e1 e2) hg]
  rw [objLoop_arch guid e1 e2 v1 v2 hg h1 h2 hx1 ht1 hx2 ht2]
  simp

theorem chunkScanTrace_shape (f : Nat) (mdl : Bytes) (i : Nat) :
    chunkScanTrace f mdl i = [] ∨ ∃ t, chunkScanTrace f mdl i = i :: t := by
  match f with
  | 0 => exact Or.inl rfl
  | f+1 =>
    simp only [chunkScanTrace]
    split
    · split
      · split
        · exact Or.inr ⟨[], rfl⟩
        · exact Or.inr ⟨_, rfl⟩
      · exact Or.inr ⟨_, rfl⟩
    · exact Or.inl rfl

theorem chunkScanTrace_chain (f : Nat) (mdl : Bytes) :
    ∀ i, List.Chain' (fun a b => a + 4 ≤ b) (chunkScanTrace f mdl i) := by
  induction f with
  | zero => intro i; exact List.chain'_nil
  | succ f ih =>
    intro i
    simp only [chunkScanTrace]
    split
    · split
      · split
        · exact List.chain'_singleton i
        · rw [List.chain'_cons']
          refine ⟨?_, ih _⟩
          intro y hy
          rcases chunkScanTrace_shape f mdl (i + u32 mdl (i + 4) + 4) with h | ⟨t, h⟩
          · rw [h] at hy
            simp at hy
          · rw [h] at hy
            simp at hy
            omega
      · rw [List.chain'_cons']
        refine ⟨?_, ih _⟩
        intro y hy
        rcases chunkScanTrace_shape f mdl (i + 4) with h | ⟨t, h⟩
        · rw [h] at hy
          simp at hy
        · rw [h] at hy
          simp at hy
          omega
    · exact List.chain'_nil

theorem glbScanTrace_shape (f : Nat) (mdl : Bytes) (stop j : Nat) :
    glbScanTrace f mdl stop j = [] ∨ ∃ t, glbScanTrace f mdl stop j = j :: t := by
  match f with
  | 0 => exact Or.inl rfl
  | f+1 =>
    simp only [glbScanTrace]
    split
    · split
      · exact Or.inl rfl
      · split
        · split
          · exact Or.inr ⟨_, rfl⟩
          · exact Or.inr ⟨_, rfl⟩
        · exact Or.inr ⟨_, rfl⟩
    · exact Or.inl rfl

theorem glbScanTrace_chain (f : Nat) (mdl : Bytes) (stop : Nat) :
    ∀ j, List.Chain' (fun a b => a + 4 ≤ b) (glbScanTrace f mdl stop j) := by
  induction f with
  | zero => intro j; exact List.chain'_nil
  | succ f ih =>
    intro j
    simp only [glbScanTrace]
    split
    · split
      · exact List.chain'_nil
      · have step : ∀ j', j + 4 ≤ j' →
            List.Chain' (fun a b => a + 4 ≤ b) (j :: glbScanTrace f mdl stop j') := by
          intro j' hj'
          rw [List.chain'_cons']
          refine ⟨?_, ih _⟩
          intro y hy
          rcases glbScanTrace_shape f mdl stop j' with h | ⟨t, h⟩
          · rw [h] at hy
            simp at hy
          · rw [h] at hy
            simp at hy
            omega
        split
        · split
          · exact step _ (by omega)
          · exact step _ (by omega)
        · exact step _ (by omega)
    · exact List.chain'_nil

theorem objLoopTrace_shape (f : Nat) (data : Bytes) (so ss br k : Nat) :
    objLoopTrace f data so ss br k = [] ∨ ∃ t, objLoopTrace f data so ss br k = br :: t := by
  match f with
  | 0 => exact Or.inl rfl
  | f+1 =>
    simp only [objLoopTrace]
    split
    · split
      · exact Or.inr ⟨[], rfl⟩
      · exact Or.inr ⟨_, rfl⟩
    · exact Or.inl rfl

theorem objLoopTrace_chain (f : Nat) (data : Bytes) (so ss : Nat) :
    ∀ br k, List.Chain' (fun a b => a + 24 ≤ b) (objLoopTrace f data so ss br k) := by
  induction f with
  | zero => intro br k; exact List.chain'_nil
  | succ f ih =>
    intro br k
    simp only [objLoopTrace]
    split
    · split
      · exact List.chain'_singleton br
      · rw [List.chain'_cons']
        refine ⟨?_, ih _ _⟩
        intro y hy
        rcases objLoopTrace_shape f data so ss (br + u32 data (so + 24 * k + 20) + 24) (k + 1)
          with h | ⟨t, h⟩
        · rw [h] at hy
          simp at hy
        · rw [h] at hy
          simp at hy
          omega
    · exact List.chain'_nil

/-- C10: every scanning loop of `process_bgl_file` terminates because each
iteration makes progress: along the chunk-scan cursor trace and the
block-scan cursor trace consecutive examined positions are at least 4 bytes
apart (even for a declared chunk or block size of 0), and along the
object-entry loop the running byte counter grows by at least 24 per
iteration; the loop bodies themselves are total functions of their fuel,
which these bounds show is never exhausted at the call sites. -/
theorem C10_loop_advance :
    (∀ f mdl i, List.Chain' (fun a b => a + 4 ≤ b) (chunkScanTrace f mdl i)) ∧
    (∀ f mdl stop j, List.Chain' (fun a b => a + 4 ≤ b) (glbScanTrace f mdl stop j)) ∧
    (∀ f data so ss br k, List.Chain' (fun a b => a + 24 ≤ b) (objLoopTrace f data so ss br k)) :=
  ⟨fun f mdl i => chunkScanTrace_chain f mdl i,
   fun f mdl stop j => glbScanTrace_chain f mdl stop j,
   fun f data so ss br k => objLoopTrace_chain f data so ss br k⟩

/-- C3 counterexample: in `mdlC3` the tag at cursor 8 matches `GLBD` with
declared size 8, yet the next examined position is 20 = 8 + 8 + 4, not
8 + 8 = 16 (which is never examined): the scanner advances by the declared
size plus the unconditional 4-byte step, so the claim that the cursor
advances by exactly the declared chunk size is false. -/
theorem C3_cursor_cex :
    pyslice mdlC3 8 12 = glbdTag ∧ u32 mdlC3 12 = 8 ∧
    chunkScanTrace 33 mdlC3 8 = [8, 20, 24] ∧ 16 ∉ chunkScanTrace 33 mdlC3 8 :=
  ⟨rfl, rfl, rfl, by decide⟩

/-- C3 (amended): at a position whose tag matches the interesting value
(with the size field in bounds) the cursor advances by the declared chunk
size plus 4 (the loop's unconditional step) before the next tag is
examined; at a non-matching position it advances by exactly 4 bytes. -/
theorem C3_cursor_advance :
    (∀ f mdl i, i < mdl.length - 4 → pyslice mdl i (i + 4) = glbdTag → i + 8 ≤ mdl.length →
      chunkScanTrace (f+1) mdl i = i :: chunkScanTrace f mdl (i + u32 mdl (i + 4) + 4)) ∧
    (∀ f mdl i, i < mdl.length - 4 → pyslice mdl i (i + 4) ≠ glbdTag →
      chunkScanTrace (f+1) mdl i = i :: chunkScanTrace f mdl (i + 4)) := by
  constructor
  · intro f mdl i h1 h2 h3
    simp only [chunkScanTrace]
    rw [if_pos h1, if_pos h2, if_neg (show ¬ i + 8 > mdl.length from by omega)]
  · intro f mdl i h1 h2
    simp only [chunkScanTrace]
    rw [if_pos h1, if_neg h2]

/-- Witness for C3 (amended): both cases applied to `mdlC3`, at the matching
position 8 (size 8, next examined 20) and the non-matching position 20. -/
theorem C3_cursor_advance_wit :
    chunkScanTrace 33 mdlC3 8 = 8 :: chunkScanTrace 32 mdlC3 (8 + u32 mdlC3 12 + 4) ∧
    chunkScanTrace 32 mdlC3 20 = 20 :: chunkScanTrace 31 mdlC3 24 :=
  ⟨C3_cursor_advance.1 32 mdlC3 8 (by decide) rfl (by decide),
   C3_cursor_advance.2 31 mdlC3 20 (by decide) (by decide)⟩

/-- C7: in the scene-block loop, a matching block whose declared size makes
`block_end` exceed the buffer yields nothing and the cursor re-synchronizes
by 4 (so later blocks of the same chunk are still reached); an in-bounds
block is decoded (emitting exactly when the decode is truthy) and the
cursor advances by 8 plus the declared size. -/
theorem C7_block_bounds :
    (∀ f mdl guid stop j k, j < stop → ¬ j + 8 > mdl.length → pyslice mdl j (j + 4) = glbTag →
        j + 8 + u32 mdl (j + 4) > mdl.length →
        glbScan (f+1) mdl guid stop j k = glbScan f mdl guid stop (j + 4) k) ∧
    (∀ f mdl guid stop j k, j < stop → ¬ j + 8 > mdl.length → pyslice mdl j (j + 4) = glbTag →
        ¬ j + 8 + u32 mdl (j + 4) > mdl.length →
        glbScan (f+1) mdl guid stop j k =
          (match extractJ (pyslice mdl (j + 8) (j + 8 + u32 mdl (j + 4))) with
           | some v =>
             if jsonTruthy v then
               ⟨guid, k, v⟩ :: glbScan f mdl guid stop (j + 8 + u32 mdl (j + 4)) (k + 1)
             else glbScan f mdl guid stop (j + 8 + u32 mdl (j + 4)) k
           | none => glbScan f mdl guid stop (j + 8 + u32 mdl (j + 4)) k)) := by
  constructor
  · intro f mdl guid stop j k h1 h2 h3 h4
    simp only [glbScan]
    rw [if_pos h1, if_neg h2, if_pos h3, if_pos h4]
  · intro f mdl guid stop j k h1 h2 h3 h4
    simp only [glbScan]
    rw [if_pos h1, if_neg h2, if_pos h3, if_neg h4]

/-- Witness for C7: the out-of-bounds case applied to `mdlC7` (declared
block size 999 in a 28-byte buffer) and the in-bounds case applied to the
first block of `mdlTwoChunks`. -/
theorem C7_block_bounds_wit :
    glbScan 6 mdlC7 guidC 28 16 0 = glbScan 5 mdlC7 guidC 28 20 0 ∧
    glbScan 6 mdlTwoChunks guidC 45 16 0 =
      (match extractJ (pyslice mdlTwoChunks 24 (24 + u32 mdlTwoChunks 20)) with
       | some v =>
         if jsonTruthy v then
           ⟨guidC, 0, v⟩ :: glbScan 5 mdlTwoChunks guidC 45 (24 + u32 mdlTwoChunks 20) 1
         else glbScan 5 mdlTwoChunks guidC 45 (24 + u32 mdlTwoChunks 20) 0
       | none => glbScan 5 mdlTwoChunks guidC 45 (24 + u32 mdlTwoChunks 20) 0) :=
  ⟨C7_block_bounds.1 5 mdlC7 guidC 28 16 0 (by decide) (by decide) rfl (by decide),
   C7_block_bounds.2 5 mdlTwoChunks guidC 45 16 0 (by decide) (by decide) rfl (by decide)⟩

theorem glbScan_truthy : ∀ (f : Nat) (mdl guid : Bytes) (stop j k : Nat) (o : Output),
    o ∈ glbScan f mdl guid stop j k → jsonTruthy o.value = true := by
  intro f
  induction f with
  | zero =>
    intro mdl guid stop j k o ho
    simp [glbScan] at ho
  | succ f ih =>
    intro mdl guid stop j k o ho
    simp only [glbScan] at ho
    by_cases h1 : j < stop
    · rw [if_pos h1] at ho
      by_cases h2 : j + 8 > mdl.length
      · rw [if_pos h2] at ho
        simp at ho
      · rw [if_neg h2] at ho
        by_cases h3 : pyslice mdl j (j + 4) = glbTag
        · rw [if_pos h3] at ho
          by_cases h4 : j + 8 + u32 mdl (j + 4) > mdl.length
          · rw [if_pos h4] at ho
            exact ih _ _ _ _ _ _ ho
          · rw [if_neg h4] at ho
            split at ho
            next v heq =>
              by_cases h5 : jsonTruthy v = true
              · rw [if_pos h5] at ho
                rcases List.mem_cons.mp ho with rfl | ho'
                · exact h5
                · exact ih _ _ _ _ _ _ ho'
              · rw [if_neg h5] at ho
                exact ih _ _ _ _ _ _ ho
            next heq =>
              exact ih _ _ _ _ _ _ ho
        · rw [if_neg h3] at ho
          exact ih _ _ _ _ _ _ ho
    · rw [if_neg h1] at ho
      simp at ho

/-- C9: a scene block whose region decodes to a falsy Python value (the
decoder returns `None` — including for a successfully parsed JSON `null` —
or a parsed `{}`, `[]`, `false`, `0` or `""`) produces no output: the
output list, the extraction count (its length) and the per-chunk ordinal
`k` are unchanged; and every emitted output carries a truthy JSON value. -/
theorem C9_falsy_not_emitted :
    (∀ f mdl guid stop j k, j < stop → ¬ j + 8 > mdl.length → pyslice mdl j (j + 4) = glbTag →
        ¬ j + 8 + u32 mdl (j + 4) > mdl.length →
        pyTruthy (extractJ (pyslice mdl (j + 8) (j + 8 + u32 mdl (j + 4)))) = false →
        glbScan (f+1) mdl guid stop j k = glbScan f mdl guid stop (j + 8 + u32 mdl (j + 4)) k) ∧
    (∀ f mdl guid stop j k o, o ∈ glbScan f mdl guid stop j k → jsonTruthy o.value = true) := by
  constructor
  · intro f mdl guid stop j k h1 h2 h3 h4 h5
    simp only [glbScan]
    rw [if_pos h1, if_neg h2, if_pos h3, if_neg h4]
    cases hx : extractJ (pyslice mdl (j + 8) (j + 8 + u32 mdl (j + 4))) with
    | none => rfl
    | some v =>
      rw [hx] at h5
      simp only [pyTruthy] at h5
      simp [h5]
  · exact fun f mdl guid stop j k o ho => glbScan_truthy f mdl guid stop j k o ho

/-- Witness for C9: the falsy-skip case applied to `mdlC9` (block text `0`,
parsed to the falsy 0), and the truthiness of the one output emitted for
the first chunk of `mdlTwoChunks`. -/
theorem C9_falsy_not_emitted_wit :
    glbScan 6 mdlC9 guidC 45 16 0 = glbScan 5 mdlC9 guidC 45 45 0 ∧
    jsonTruthy (Output.value ⟨guidC, 0, Json.num 1⟩) = true :=
  ⟨C9_falsy_not_emitted.1 5 mdlC9 guidC 45 16 0 (by decide) (by decide) rfl (by decide) rfl,
   C9_falsy_not_emitted.2 67 mdlTwoChunks guidC 45 16 0 ⟨guidC, 0, Json.num 1⟩
     (by rw [show glbScan 67 mdlTwoChunks guidC 45 16 0 = [⟨guidC, 0, Json.num 1⟩] from rfl]
         exact List.mem_singleton.mpr rfl)⟩

theorem glbScan_ordinals : ∀ (f : Nat) (mdl guid : Bytes) (stop j k : Nat),
    (glbScan f mdl guid stop j k).map Output.ordinal
      = List.range' k (glbScan f mdl guid stop j k).length := by
  intro f
  induction f with
  | zero => intro mdl guid stop j k; rfl
  | succ f ih =>
    intro mdl guid stop j k
    simp only [glbScan]
    split
    · split
      · rfl
      · split
        · split
          · exact ih _ _ _ _ _
          · split
            next v heq =>
              split
              · simp only [List.map_cons, List.length_cons, ih]
                rfl
              · exact ih _ _ _ _ _
            next heq => exact ih _ _ _ _ _
        · exact ih _ _ _ _ _
    · rfl

/-- C2 counterexample: in the archive holding `mdlTwoChunks` a single
ObjectEntry's payload carries two interesting chunks, each with one decoded
value; the two outputs both receive ordinal 0 (the source resets
`glb_index` inside the chunk branch), not the consecutive 0, 1 the claim
requires across all interesting chunks of one object. -/
theorem C2_ordinal_cex :
    process_bgl_file (mkArchiveWith mdlTwoChunks) =
      .ok (2, [⟨guidC, 0, Json.num 1⟩, ⟨guidC, 0, Json.num 1⟩]) ∧
    ([⟨guidC, 0, Json.num 1⟩, ⟨guidC, 0, Json.num 1⟩] : List Output).map Output.ordinal
      ≠ List.range 2 :=
  ⟨rfl, by decide⟩

/-- C2 (amended): the ordinal is reset to 0 once per interesting chunk (not
once per ObjectEntry) and incremented once per successful decode: a block
scan started at ordinal `k` hands out the consecutive ordinals `k, k+1, …`,
and the chunk scanner starts every interesting chunk's block scan at
ordinal 0. -/
theorem C2_ordinal_reset :
    (∀ f mdl guid stop j k,
      (glbScan f mdl guid stop j k).map Output.ordinal
        = List.range' k (glbScan f mdl guid stop j k).length) ∧
    (∀ f mdl guid i, i < mdl.length - 4 → pyslice mdl i (i + 4) = glbdTag →
        ¬ i + 8 > mdl.length →
        chunkScan (f+1) mdl guid i =
          glbScan (mdl.length + 1) mdl guid (min (i + 8 + u32 mdl (i + 4)) mdl.length) (i + 8) 0
            ++ chunkScan f mdl guid (i + u32 mdl (i + 4) + 4)) := by
  constructor
  · exact glbScan_ordinals
  · intro f mdl guid i h1 h2 h3
    simp only [chunkScan]
    rw [if_pos h1, if_pos h2, if_neg h3]

/-- Witness for C2 (amended): the chunk-unfolding case applied to
`mdlTwoChunks` at the first interesting chunk, whose block scan starts at
ordinal 0. -/
theorem C2_ordinal_reset_wit :
    chunkScan 75 mdlTwoChunks guidC 8 =
      glbScan (mdlTwoChunks.length + 1) mdlTwoChunks guidC
        (min (8 + 8 + u32 mdlTwoChunks 12) mdlTwoChunks.length) 16 0
      ++ chunkScan 74 mdlTwoChunks guidC (8 + u32 mdlTwoChunks 12 + 4) :=
  C2_ordinal_reset.2 74 mdlTwoChunks guidC 8 (by decide) rfl (by decide)

/-- C6: the object-entry loop stops exactly when the byte counter reaches
the declared subrecord size or the next full 24-byte descriptor would
overrun the buffer (emitting nothing there, so only entries whose
descriptor fits contribute), and otherwise — whether the entry's payload is
emitted or skipped — continues with the byte counter increased by exactly
the declared payload size plus 24 and the entry index by exactly 1. -/
theorem C6_entry_stride :
    (∀ f data so ss br k, ss ≤ br → objLoop (f+1) data so ss br k = []) ∧
    (∀ f data so ss br k, br < ss → so + 24 * k + 24 > data.length →
        objLoop (f+1) data so ss br k = []) ∧
    (∀ f data so ss br k, br < ss → ¬ so + 24 * k + 24 > data.length →
        ∃ emitted, objLoop (f+1) data so ss br k
          = emitted ++ objLoop f data so ss (br + u32 data (so + 24 * k + 20) + 24) (k + 1)) := by
  refine ⟨?_, ?_, ?_⟩
  · intro f data so ss br k h
    simp only [objLoop]
    rw [if_neg (by omega)]
  · intro f data so ss br k h1 h2
    simp only [objLoop]
    rw [if_pos h1, if_pos h2]
  · intro f data so ss br k h1 h2
    simp only [objLoop]
    rw [if_pos h1, if_neg h2]
    by_cases h3 : so + u32 data (so + 24 * k + 16) + u32 data (so + 24 * k + 20) > data.length
    · refine ⟨[], ?_⟩
      rw [if_pos h3]
      rfl
    · rw [if_neg h3]
      by_cases h4 : (pyslice data (so + u32 data (so + 24 * k + 16))
            (so + u32 data (so + 24 * k + 16) + u32 data (so + 24 * k + 20))).length < 4
          ∨ pyslice (pyslice data (so + u32 data (so + 24 * k + 16))
            (so + u32 data (so + 24 * k + 16) + u32 data (so + 24 * k + 20))) 0 4 ≠ riffTag
      · refine ⟨[], ?_⟩
        rw [if_pos h4]
        rfl
      · refine ⟨chunkScan ((pyslice data (so + u32 data (so + 24 * k + 16))
            (so + u32 data (so + 24 * k + 16) + u32 data (so + 24 * k + 20))).length + 1)
            (pyslice data (so + u32 data (so + 24 * k + 16))
              (so + u32 data (so + 24 * k + 16) + u32 data (so + 24 * k + 20)))
            (pyslice data (so + 24 * k) (so + 24 * k + 16)) 8, ?_⟩
        rw [if_neg h4]

/-- Witness for C6: all three cases on concrete buffers — counter at the
declared size, descriptor overrunning an empty buffer, and one full stride
over the all-zero 28-byte buffer. -/
theorem C6_entry_stride_wit :
    objLoop 1 [] 0 0 0 0 = [] ∧
    objLoop 1 [] 0 1 0 0 = [] ∧
    ∃ emitted, objLoop 2 dataC6 0 1 0 0
      = emitted ++ objLoop 1 dataC6 0 1 (0 + u32 dataC6 20 + 24) 1 :=
  ⟨C6_entry_stride.1 0 [] 0 0 0 0 (Nat.le_refl 0),
   C6_entry_stride.2.1 0 [] 0 1 0 0 (by decide) (by decide),
   C6_entry_stride.2.2 1 dataC6 0 1 0 0 (by decide) (by decide)⟩

/-- C4: an archive shorter than the 0x38-byte minimum header, or whose
bytes [0,4) differ from `01 02 92 19`, or whose bytes [0x10,0x14) differ
from `03 18 05 08`, yields extraction count 0 and no written outputs. -/
theorem C4_header_reject (data : Bytes)
    (h : data.length < 0x38 ∨ pyslice data 0 4 ≠ magic1 ∨ pyslice data 0x10 0x14 ≠ magic2) :
    process_bgl_file data = .ok (0, []) := by
  unfold process_bgl_file
  rcases h with h | h | h
  · rw [if_pos h]
  · by_cases hl : data.length < 0x38
    · rw [if_pos hl]
    · have hv : validate_bgl_header data = false := by
        unfold validate_bgl_header
        rw [decide_eq_false h]
        simp
      rw [if_neg hl, if_pos hv]
  · by_cases hl : data.length < 0x38
    · rw [if_pos hl]
    · have hv : validate_bgl_header data = false := by
        unfold validate_bgl_header
        rw [decide_eq_false h]
        simp
      rw [if_neg hl, if_pos hv]

/-- Witness for C4: the empty buffer is below the minimum header size. -/
theorem C4_header_reject_wit : process_bgl_file [] = .ok (0, []) :=
  C4_header_reject [] (Or.inl (by decide))

/-- C1 (code bug): on `bufC1` — a valid-magic archive whose single 0x2B
record points its ModelData region at offset 64 of the 76-byte buffer — the
guard `mdl_offset + 12 > len(data)` passes (76 = 76), yet the 4-byte
subrecord-size read at offset 76 gets an empty slice and `struct.unpack`
raises `struct.error`, escaping `process_bgl_file`: an offset read from the
buffer is used without being checked against the 4-byte width it needs. -/
theorem C1_unguarded_read : process_bgl_file bufC1 = .error () := rfl

/-- C5 counterexample: a block whose declared region is the JSON text
`null` is in bounds and parses successfully, yet the decoder returns none
(Python's `return json_obj` hands back `None` for a parsed JSON `null`),
so "returns none exactly when too short, out of bounds, or unparsable" is
false. -/
theorem C5_null_cex :
    extract_json_from_glb (mkGlb [0x6E, 0x75, 0x6C, 0x6C]) = .ok none ∧
    ¬ (mkGlb [0x6E, 0x75, 0x6C, 0x6C]).length < 0x14 ∧
    ¬ 0x14 + u32 (mkGlb [0x6E, 0x75, 0x6C, 0x6C]) 0x0C
        > (mkGlb [0x6E, 0x75, 0x6C, 0x6C]).length ∧
    json_loads (glbSanitized (mkGlb [0x6E, 0x75, 0x6C, 0x6C])) = .ok Json.null :=
  ⟨rfl, by decide, by decide, rfl⟩

/-- C5 (amended): the decoder never raises, and returns none exactly when
the block is shorter than 0x14 bytes, the declared region `0x14 + length`
overruns the block, the sanitized slice fails to parse, or it parses to
JSON `null`; otherwise it returns exactly the value parsed from the
sanitized declared-length slice. -/
theorem C5_decoder (b : Bytes) :
    (extract_json_from_glb b).isOk = true ∧
    (extract_json_from_glb b = .ok none ↔
      b.length < 0x14 ∨ 0x14 + u32 b 0x0C > b.length ∨
      json_loads (glbSanitized b) = .error () ∨ json_loads (glbSanitized b) = .ok .null) ∧
    (∀ v, v ≠ Json.null →
      (extract_json_from_glb b = .ok (some v) ↔
        ¬ b.length < 0x14 ∧ ¬ 0x14 + u32 b 0x0C > b.length ∧
        json_loads (glbSanitized b) = .ok v)) := by
  by_cases hb : b.length < 0x14
  · have he : extract_json_from_glb b = .ok none := by
      simp [extract_json_from_glb, hb]
    refine ⟨by rw [he]; rfl, by rw [he]; simp [hb], ?_⟩
    intro v hv
    rw [he]
    simp [hb]
  · have hr : read_uint32 b 0x0C = .ok (u32 b 0x0C) := read_uint32_ok b 0x0C (by omega)
    by_cases he2 : 0x14 + u32 b 0x0C > b.length
    · have he : extract_json_from_glb b = .ok none := by
        unfold extract_json_from_glb
        rw [if_neg hb]
        simp only [hr]
        rw [if_pos he2]
      refine ⟨by rw [he]; rfl, by rw [he]; simp [hb, he2], ?_⟩
      intro v hv
      rw [he]
      simp [hb, he2]
    · cases hj : json_loads (glbSanitized b) with
      | error u =>
        cases u
        have he : extract_json_from_glb b = .ok none := by
          unfold extract_json_from_glb
          rw [if_neg hb]
          simp only [hr]
          rw [if_neg he2]
          have h' : json_loads (pystrip (clean_json_string
              (pyslice b 0x14 (0x14 + u32 b 0x0C)))) = .error () := hj
          simp only [h']
        refine ⟨by rw [he]; rfl, by rw [he]; simp [hb, he2, hj], ?_⟩
        intro v hv
        rw [he]
        simp [hb, he2, hj]
      | ok v =>
        have he : extract_json_from_glb b = .ok (pyReturn v) := by
          unfold extract_json_from_glb
          rw [if_neg hb]
          simp only [hr]
          rw [if_neg he2]
          have h' : json_loads (pystrip (clean_json_string
              (pyslice b 0x14 (0x14 + u32 b 0x0C)))) = .ok v := hj
          simp only [h']
        cases v with
        | null =>
          refine ⟨by rw [he]; rfl, by rw [he]; simp [hb, he2, hj, pyReturn], ?_⟩
          intro w hw
          rw [he]
          constructor
          · intro hcontra
            simp [pyReturn] at hcontra
          · rintro ⟨-, -, h3x⟩
            injection h3x with h
            exact absurd h.symm hw
        | bool bb =>
          refine ⟨by rw [he]; rfl, by rw [he]; simp [hb, he2, hj, pyReturn], ?_⟩
          intro w hw
          rw [he]
          simp [hb, he2, hj, pyReturn]
        | num n =>
          refine ⟨by rw [he]; rfl, by rw [he]; simp [hb, he2, hj, pyReturn], ?_⟩
          intro w hw
          rw [he]
          simp [hb, he2, hj, pyReturn]
        | str s =>
          refine ⟨by rw [he]; rfl, by rw [he]; simp [hb, he2, hj, pyReturn], ?_⟩
          intro w hw
          rw [he]
          simp [hb, he2, hj, pyReturn]
        | arr elems =>
          refine ⟨by rw [he]; rfl, by rw [he]; simp [hb, he2, hj, pyReturn], ?_⟩
          intro w hw
          rw [he]
          simp [hb, he2, hj, pyReturn]
        | obj members =>
          refine ⟨by rw [he]; rfl, by rw [he]; simp [hb, he2, hj, pyReturn], ?_⟩
          intro w hw
          rw [he]
          simp [hb, he2, hj, pyReturn]

/-- Witness for C5 (amended): the positive direction at a block wrapping the
JSON text `1`. -/
theorem C5_decoder_wit :
    extract_json_from_glb (mkGlb [0x31]) = .ok (some (Json.num 1)) ↔
      ¬ (mkGlb [0x31]).length < 0x14 ∧
      ¬ 0x14 + u32 (mkGlb [0x31]) 0x0C > (mkGlb [0x31]).length ∧
      json_loads (glbSanitized (mkGlb [0x31])) = .ok (Json.num 1) :=
  (C5_decoder (mkGlb [0x31])).2.2 (Json.num 1) (fun h => Json.noConfusion h)

/-- C8 counterexample: both scene blocks of the archive wrap byte-encodings
of valid compact JSON objects (`{}` and `{"a":1}`, both under 64KB), yet
extraction produces one output, not two with ordinals 0 and 1: the parsed
empty object is falsy, so `if json_obj:` drops it, and the surviving second
value gets ordinal 0. -/
theorem C8_empty_object_cex :
    json_loads [0x7B, 0x7D] = .ok (.obj []) ∧
    json_loads [0x7B, 0x22, 0x61, 0x22, 0x3A, 0x31, 0x7D] = .ok (.obj [([0x61], .num 1)]) ∧
    process_bgl_file
        (mkArchiveWith (mkMdl [0x7B, 0x7D] [0x7B, 0x22, 0x61, 0x22, 0x3A, 0x31, 0x7D])) =
      .ok (1, [⟨guidC, 0, .obj [([0x61], .num 1)]⟩]) ∧
    (1 : Nat) ≠ 2 :=
  ⟨rfl, rfl, rfl, by decide⟩

/-- C8 (amended): for every well-formed archive `mkArchive guid (mkMdl e1
e2)` — one 0x2B record, one object entry, one interesting chunk with
exactly two valid scene blocks whose embedded-JSON headers declare the
in-bounds lengths of `e1` and `e2` — where each `eᵢ` is a byte-encoding of
a valid NONEMPTY compact JSON object under 64KB (it parses to an object
`mᵢ ≠ []`, is printable ASCII, and has no surrounding whitespace),
extraction produces exactly two outputs with ordinals 0 and 1, and each
extracted value equals the object encoded: parse(decode(x)) == x. -/
theorem C8_roundtrip (guid e1 e2 : Bytes) (m1 m2 : List (List Nat × Json))
    (hg : guid.length = 16)
    (h1p : json_loads e1 = .ok (.obj m1)) (h1n : m1 ≠ [])
    (h1c : clean_json_string e1 = e1) (h1s : pystrip e1 = e1) (h1l : e1.length < 65536)
    (h2p : json_loads e2 = .ok (.obj m2)) (h2n : m2 ≠ [])
    (h2c : clean_json_string e2 = e2) (h2s : pystrip e2 = e2) (h2l : e2.length < 65536) :
    process_bgl_file (mkArchive guid (mkMdl e1 e2)) =
      .ok (2, [⟨guid, 0, .obj m1⟩, ⟨guid, 1, .obj m2⟩]) := by
  have hA : (mkArchive guid (mkMdl e1 e2)).length = 116 + (mkMdl e1 e2).length :=
    mkArchive_length _ _ hg
  have hx1 : extractJ (mkGlb e1) = some (Json.obj m1) := by
    rw [extractJ_mkGlb e1 (.obj m1) (by omega) h1p h1c h1s]
    rfl
  have ht1 : jsonTruthy (Json.obj m1) = true := by
    cases m1 with
    | nil => exact absurd rfl h1n
    | cons a l => rfl
  have hx2 : extractJ (mkGlb e2) = some (Json.obj m2) := by
    rw [extractJ_mkGlb e2 (.obj m2) (by omega) h2p h2c h2s]
    rfl
  have ht2 : jsonTruthy (Json.obj m2) = true := by
    cases m2 with
    | nil => exact absurd rfl h2n
    | cons a l => rfl
  unfold process_bgl_file
  rw [if_neg (by omega)]
  rw [arch_validate guid (mkMdl e1 e2)]
  rw [if_neg (by simp)]
  simp only [arch_u32_20 guid (mkMdl e1 e2), findModelData_arch guid (mkMdl e1 e2) hg,
    pmo_arch guid e1 e2 (.obj m1) (.obj m2) hg h1l h2l hx1 ht1 hx2 ht2]
  simp

/-- Witness for C8 (amended): the archive built from the encodings of the
nonempty compact objects with the fixed identifier. -/
theorem C8_roundtrip_wit :
    process_bgl_file (mkArchive guidC (mkMdl [0x7B, 0x22, 0x61, 0x22, 0x3A, 0x31, 0x7D]
        [0x7B, 0x22, 0x62, 0x22, 0x3A, 0x32, 0x7D])) =
      .ok (2, [⟨guidC, 0, .obj [([0x61], .num 1)]⟩, ⟨guidC, 1, .obj [([0x62], .num 2)]⟩]) :=
  C8_roundtrip guidC [0x7B, 0x22, 0x61, 0x22, 0x3A, 0x31, 0x7D]
    [0x7B, 0x22, 0x62, 0x22, 0x3A, 0x32, 0x7D]
    [([0x61], .num 1)] [([0x62], .num 2)] rfl
    rfl (List.cons_ne_nil _ _) rfl rfl (by decide)
    rfl (List.cons_ne_nil _ _) rfl rfl (by decide)

example : json_loads [0x31] = .ok (.num 1) := rfl
example : json_loads [0x6E, 0x75, 0x6C, 0x6C] = .ok .null := rfl
example : json_loads [0x7B, 0x22, 0x61, 0x22, 0x3A, 0x31, 0x7D] = .ok (.obj [([0x61], .num 1)]) := rfl
example : json_loads [0x7B, 0x7D] = .ok (.obj []) := rfl
example : json_loads [0x5B, 0x31, 0x2C, 0x20, 0x32, 0x5D] = .ok (.arr [.num 1, .num 2]) := rfl
example : json_loads [0x2D, 0x34, 0x32] = .ok (.num (-42)) := rfl
example : json_loads [0x22, 0x61, 0x5C, 0x6E, 0x22] = .ok (.str [0x61, 10]) := rfl
example : json_loads [0x30, 0x31] = .error () := rfl
example : json_loads [] = .error () := rfl
